import Mathlib

/-!
Verification of `solar::ThreadSafeQueue<T>` (include/util/ThreadSafeQueue-style
header of the Solar Stewart Tracker repository).

The class is a monitor: a `std::deque<T> q_` and a `bool stopped_`, both only
touched under the mutex `m_`.  Because every public member function holds the
lock for the whole of its critical section, the externally observable behaviour
is a sequence of atomic state transitions; we embed it as a pure state machine
on `ThreadSafeQueue T` below, one Lean function per member function.

For `wait_pop`, the condition-variable wait `cv_.wait(lock, [&]{ return
stopped_ || !q_.empty(); })` means the call only completes (and runs its body)
in a state where that predicate holds; the predicate is embedded as
`waitReady`, and the post-wait body as the function `wait_pop`.
-/

namespace solar

/-- State of a `ThreadSafeQueue<T>`: the deque `q_` (head of the list is the
front of the deque) and the shutdown flag `stopped_` (initialised `false` by
the member initialiser `bool stopped_{false}`). -/
structure ThreadSafeQueue (T : Type) where
  q_ : List T
  stopped_ : Bool

namespace ThreadSafeQueue

variable {T : Type}

/-- The default constructor `ThreadSafeQueue() = default`: empty deque,
`stopped_ = false`. -/
def init : ThreadSafeQueue T :=
  { q_ := [], stopped_ := false }

/-- `push` (the copy overload `push(const T&)` and the move overload
`push(T&&)` perform the same state transition): under the lock, if `stopped_`
then `return` without touching the deque, else `q_.push_back(item)`.  The
`cv_.notify_one()` after the critical section does not change the state. -/
def push (s : ThreadSafeQueue T) (item : T) : ThreadSafeQueue T :=
  if s.stopped_ then s
  else { s with q_ := s.q_ ++ [item] }

/-- The wait predicate of `wait_pop`: the lambda
`[&] { return stopped_ || !q_.empty(); }` handed to `cv_.wait`.  A `wait_pop`
call completes exactly when this evaluates to `true`. -/
def waitReady (s : ThreadSafeQueue T) : Bool :=
  s.stopped_ || !s.q_.isEmpty

/-- Body of `wait_pop` after `cv_.wait` has returned: if `q_.empty()` return
`std::nullopt`, else move out `q_.front()`, `q_.pop_front()` and return the
item.  The pair is (returned optional, queue state after the call). -/
def wait_pop (s : ThreadSafeQueue T) : Option T × ThreadSafeQueue T :=
  match s.q_ with
  | [] => (none, s)
  | x :: xs => (some x, { s with q_ := xs })

/-- `try_pop`: under the lock, if `q_.empty()` return `std::nullopt`
immediately, else move out `q_.front()`, `q_.pop_front()` and return the
item.  No wait of any kind. -/
def try_pop (s : ThreadSafeQueue T) : Option T × ThreadSafeQueue T :=
  match s.q_ with
  | [] => (none, s)
  | x :: xs => (some x, { s with q_ := xs })

/-- `stop()`: under the lock set `stopped_ = true`; the `cv_.notify_all()`
after the critical section does not change the state. -/
def stop (s : ThreadSafeQueue T) : ThreadSafeQueue T :=
  { s with stopped_ := true }

/-- `clear()`: under the lock `q_.clear()`; `stopped_` is not touched. -/
def clear (s : ThreadSafeQueue T) : ThreadSafeQueue T :=
  { s with q_ := [] }

/-- `size()`: snapshot of `q_.size()`. -/
def size (s : ThreadSafeQueue T) : Nat :=
  s.q_.length

/-- `stopped()`: snapshot of `stopped_`. -/
def stopped (s : ThreadSafeQueue T) : Bool :=
  s.stopped_

/-- One constructor per public mutating or observing operation of the class,
so that statements can quantify over "every operation". -/
inductive Op (T : Type) where
  | push (item : T)
  | wait_pop
  | try_pop
  | stop
  | clear
  | size
  | stopped

/-- Observable output of one operation: `unit` for the `void` members, the
returned `std::optional<T>` for the pops, the returned count for `size()`,
the returned flag for `stopped()`.  There is no error constructor because no
member function has an error path. -/
inductive Out (T : Type) where
  | unit
  | popped (r : Option T)
  | count (n : Nat)
  | flag (b : Bool)

/-- Execute one operation on a queue state, returning its output and the
state after the call.  `wait_pop` is entered through its post-wait body. -/
def step : Op T → ThreadSafeQueue T → Out T × ThreadSafeQueue T
  | .push item, s => (.unit, s.push item)
  | .wait_pop, s => (.popped s.wait_pop.1, s.wait_pop.2)
  | .try_pop, s => (.popped s.try_pop.1, s.try_pop.2)
  | .stop, s => (.unit, s.stop)
  | .clear, s => (.unit, s.clear)
  | .size, s => (.count s.size, s)
  | .stopped, s => (.flag s.stopped, s)

/-- Run a sequence of operations, discarding outputs. -/
def run (s : ThreadSafeQueue T) : List (Op T) → ThreadSafeQueue T
  | [] => s
  | op :: ops => run (step op s).2 ops

/-- A sequence of `push` calls, one per element of `vs`, first element
pushed first. -/
def pushAll (s : ThreadSafeQueue T) (vs : List T) : ThreadSafeQueue T :=
  vs.foldl push s

/-- `n` consecutive `wait_pop` calls; collects the returned optionals in call
order together with the final state. -/
def popN (s : ThreadSafeQueue T) : Nat → List (Option T) × ThreadSafeQueue T
  | 0 => ([], s)
  | Nat.succ n =>
    let r := s.wait_pop
    let rest := popN r.2 n
    (r.1 :: rest.1, rest.2)

/-- A sequence of pops where each call is either `wait_pop` (`true`) or
`try_pop` (`false`), as allowed by the FIFO property P1. -/
def popSeq (s : ThreadSafeQueue T) : List Bool → List (Option T) × ThreadSafeQueue T
  | [] => ([], s)
  | c :: cs =>
    let r := if c then s.wait_pop else s.try_pop
    let rest := popSeq r.2 cs
    (r.1 :: rest.1, rest.2)

/-! ## Helper lemmas -/

/-- Pushing a list of items onto a non-stopped queue appends them all, in
order, and leaves the flag `false`. -/
theorem pushAll_not_stopped (vs : List T) :
    ∀ s : ThreadSafeQueue T, s.stopped_ = false →
      pushAll s vs = { q_ := s.q_ ++ vs, stopped_ := false } := by
  induction vs with
  | nil => intro s h; cases s; simp_all [pushAll]
  | cons v vs ih =>
    intro s h
    have hstep : push s v = { q_ := s.q_ ++ [v], stopped_ := false } := by
      cases s; simp_all [push]
    calc pushAll s (v :: vs) = pushAll (push s v) vs := rfl
      _ = { q_ := (s.q_ ++ [v]) ++ vs, stopped_ := false } := by
          rw [hstep]; exact ih _ rfl
      _ = { q_ := s.q_ ++ v :: vs, stopped_ := false } := by simp

/-- Draining lemma: as many `wait_pop` calls as there are buffered items
return exactly those items (wrapped in `some`), in order, leaving the buffer
empty and the flag untouched. -/
theorem popN_drain (b : List T) :
    ∀ s : ThreadSafeQueue T, s.q_ = b →
      popN s b.length = (b.map some, { s with q_ := [] }) := by
  induction b with
  | nil => intro s h; cases s; simp_all [popN]
  | cons x xs ih =>
    intro s h
    have hw : s.wait_pop = (some x, { s with q_ := xs }) := by
      simp [wait_pop, h]
    have hrest := ih { s with q_ := xs } rfl
    simp [popN, hw, hrest]

/-- Mixed draining lemma: any sequence of `wait_pop`/`try_pop` calls, one per
buffered item, returns exactly the buffered items in order. -/
theorem popSeq_drain (cs : List Bool) :
    ∀ s : ThreadSafeQueue T, cs.length = s.q_.length →
      popSeq s cs = (s.q_.map some, { s with q_ := [] }) := by
  induction cs with
  | nil =>
    intro s h
    have : s.q_ = [] := List.eq_nil_of_length_eq_zero h.symm
    cases s; simp_all [popSeq]
  | cons c cs ih =>
    intro s h
    match hq : s.q_ with
    | [] => rw [hq] at h; simp at h
    | x :: xs =>
      have hpop : (if c then s.wait_pop else s.try_pop)
          = (some x, { s with q_ := xs }) := by
        cases c <;> simp [wait_pop, try_pop, hq]
      have hlen : cs.length = xs.length := by
        rw [hq] at h; simpa using h
      have hrest := ih { s with q_ := xs } hlen
      simp [popSeq, hpop, hrest, hq]

/-- Every single operation preserves a raised `stopped_` flag. -/
theorem step_keeps_stopped (op : Op T) (s : ThreadSafeQueue T)
    (h : s.stopped_ = true) : (step op s).2.stopped_ = true := by
  cases op with
  | push item => simp [step, push, h]
  | wait_pop => cases hq : s.q_ <;> simp [step, wait_pop, hq, h]
  | try_pop => cases hq : s.q_ <;> simp [step, try_pop, hq, h]
  | stop => simp [step, stop]
  | clear => simp [step, clear, h]
  | size => simpa [step] using h
  | stopped => simpa [step] using h

/-! ## Claims -/

/-- Claim C1: whenever a `wait_pop` call completes (i.e. the wait predicate
`stopped_ || !q_.empty()` holds), it returns the empty optional exactly when
the queue is stopped and the buffer is empty, and whenever the buffer is
non-empty it returns an item. -/
theorem wait_pop_none_iff_stopped_empty (s : ThreadSafeQueue T)
    (h : waitReady s = true) :
    (s.wait_pop.1 = none ↔ s.stopped_ = true ∧ s.q_ = []) ∧
    (s.q_ ≠ [] → ∃ x, s.wait_pop.1 = some x) := by
  cases hq : s.q_ with
  | nil =>
    have hs : s.stopped_ = true := by
      simpa [waitReady, hq] using h
    simp [wait_pop, hq, hs]
  | cons x xs => simp [wait_pop, hq]

/-- Claim C1 witness: on the stopped empty queue the wait predicate holds and
`wait_pop` returns the empty optional. -/
theorem wait_pop_none_iff_stopped_empty_witness :
    waitReady ({ q_ := [], stopped_ := true } : ThreadSafeQueue Nat) = true ∧
    ((({ q_ := [], stopped_ := true } : ThreadSafeQueue Nat).wait_pop.1 = none ↔
      ({ q_ := [], stopped_ := true } : ThreadSafeQueue Nat).stopped_ = true ∧
      ({ q_ := [], stopped_ := true } : ThreadSafeQueue Nat).q_ = []) ∧
     (({ q_ := [], stopped_ := true } : ThreadSafeQueue Nat).q_ ≠ [] →
      ∃ x, ({ q_ := [], stopped_ := true } : ThreadSafeQueue Nat).wait_pop.1 = some x)) :=
  ⟨rfl, wait_pop_none_iff_stopped_empty _ rfl⟩

/-- Claim C2: FIFO.  Starting from the empty, non-stopped queue, push the
distinct values `vs` in order; then any sequence of `vs.length` pops, each
one either `wait_pop` or `try_pop`, returns exactly `vs` in order. -/
theorem fifo_push_then_pop (vs : List T) (cs : List Bool)
    (_hdistinct : vs.Nodup) (hlen : cs.length = vs.length) :
    (popSeq (pushAll (init : ThreadSafeQueue T) vs) cs).1 = vs.map some := by
  have hp : pushAll (init : ThreadSafeQueue T) vs
      = { q_ := vs, stopped_ := false } := by
    simpa [init] using pushAll_not_stopped vs (init : ThreadSafeQueue T) rfl
  have hd := popSeq_drain cs (pushAll (init : ThreadSafeQueue T) vs)
    (by rw [hp]; simpa using hlen)
  rw [hd, hp]

/-- Claim C2 witness: pushing the distinct values 3, 1, 2 and popping three
times (wait, try, wait) returns 3, 1, 2 in order. -/
theorem fifo_push_then_pop_witness :
    ([3, 1, 2] : List Nat).Nodup ∧
    ([true, false, true] : List Bool).length = ([3, 1, 2] : List Nat).length ∧
    (popSeq (pushAll (init : ThreadSafeQueue Nat) [3, 1, 2]) [true, false, true]).1
      = [some 3, some 1, some 2] :=
  ⟨by decide, rfl, fifo_push_then_pop [3, 1, 2] [true, false, true] (by decide) rfl⟩

/-- Claim C3: drain before close.  For a queue holding `k = size s` buffered
items, after `stop()` the next `k` `wait_pop` calls return exactly those `k`
items in FIFO order (the stopped flag notwithstanding), and the `(k+1)`-th
`wait_pop` returns the empty optional. -/
theorem stop_drains_then_none (s : ThreadSafeQueue T) :
    (popN s.stop s.size).1 = s.q_.map some ∧
    ((popN s.stop s.size).2.wait_pop.1 = none) := by
  have hq : s.stop.q_ = s.q_ := rfl
  have hd := popN_drain s.q_ s.stop hq
  have hsize : s.size = s.q_.length := rfl
  rw [hsize, hd]
  exact ⟨rfl, rfl⟩

/-- Claim C4: push after stop is a no-op.  With `stopped_ = true`, `push`
returns the state unchanged: same buffer, same `size()`, flag still raised,
and no error is possible (`push` is a total function into queue states). -/
theorem push_after_stop_noop (s : ThreadSafeQueue T) (x : T)
    (h : s.stopped_ = true) :
    s.push x = s ∧ (s.push x).size = s.size ∧ (s.push x).stopped_ = true := by
  have hp : s.push x = s := by simp [push, h]
  exact ⟨hp, by rw [hp], by rw [hp]; exact h⟩

/-- Claim C4 witness: pushing 7 onto a stopped queue holding 1, 2 leaves it
exactly as it was. -/
theorem push_after_stop_noop_witness :
    ({ q_ := [1, 2], stopped_ := true } : ThreadSafeQueue Nat).stopped_ = true ∧
    ({ q_ := [1, 2], stopped_ := true } : ThreadSafeQueue Nat).push 7
      = { q_ := [1, 2], stopped_ := true } :=
  ⟨rfl, (push_after_stop_noop { q_ := [1, 2], stopped_ := true } 7 rfl).1⟩

/-- Claim C5: `try_pop` on an empty buffer returns the empty optional and
leaves the state untouched, whatever the stopped flag; on a non-empty buffer
it removes the front element and returns it, leaving the flag unchanged.
(It never suspends: it is a plain function of the state, with no wait.) -/
theorem try_pop_spec (s : ThreadSafeQueue T) :
    (s.q_ = [] → s.try_pop = (none, s)) ∧
    (∀ x xs, s.q_ = x :: xs →
      s.try_pop.1 = some x ∧ s.try_pop.2.q_ = xs ∧
      s.try_pop.2.stopped_ = s.stopped_) := by
  cases hq : s.q_ with
  | nil => simp [try_pop, hq]
  | cons x xs => simp [try_pop, hq]

/-- Claim C5 witness: on a stopped queue with empty buffer `try_pop` returns
the empty optional; on a queue holding 5, 6 it returns 5 and leaves 6. -/
theorem try_pop_spec_witness :
    ({ q_ := [], stopped_ := true } : ThreadSafeQueue Nat).try_pop
      = (none, { q_ := [], stopped_ := true }) ∧
    ({ q_ := [5, 6], stopped_ := false } : ThreadSafeQueue Nat).try_pop.1 = some 5 ∧
    ({ q_ := [5, 6], stopped_ := false } : ThreadSafeQueue Nat).try_pop.2.q_ = [6] ∧
    ({ q_ := [5, 6], stopped_ := false } : ThreadSafeQueue Nat).try_pop.2.stopped_ = false :=
  ⟨(try_pop_spec { q_ := [], stopped_ := true }).1 rfl,
   (try_pop_spec { q_ := [5, 6], stopped_ := false }).2 5 [6] rfl⟩

/-- Claim C6: `stop` is idempotent — applying it `n + 1` times (any number
of times at least one) yields exactly the state of applying it once. -/
theorem stop_idempotent (s : ThreadSafeQueue T) (n : Nat) :
    Nat.iterate stop (n + 1) s = s.stop := by
  have hfix : stop (stop s) = stop s := rfl
  calc Nat.iterate stop (n + 1) s = Nat.iterate stop n (stop s) :=
        Function.iterate_succ_apply stop n s
    _ = stop s := Function.iterate_fixed hfix n

/-- Claim C7: `clear` empties the buffer (`size()` becomes 0) and leaves the
stopped flag exactly as it was; on a non-stopped queue a `push` after `clear`
still appends its item. -/
theorem clear_spec (s : ThreadSafeQueue T) (x : T) :
    s.clear.q_ = [] ∧ s.clear.size = 0 ∧ s.clear.stopped_ = s.stopped_ ∧
    (s.stopped_ = false → ((s.clear).push x).q_ = [x]) := by
    refine ⟨rfl, rfl, rfl, fun h => ?_⟩
    simp [clear, push, h]

/-- Claim C7 witness: clearing an active queue holding 9 empties it, keeps it
active, and a subsequent push of 4 appends 4. -/
theorem clear_spec_witness :
    ({ q_ := [9], stopped_ := false } : ThreadSafeQueue Nat).clear.q_ = [] ∧
    ({ q_ := [9], stopped_ := false } : ThreadSafeQueue Nat).clear.stopped_ = false ∧
    ((({ q_ := [9], stopped_ := false } : ThreadSafeQueue Nat).clear).push 4).q_ = [4] :=
  ⟨(clear_spec { q_ := [9], stopped_ := false } 4).1,
   (clear_spec { q_ := [9], stopped_ := false } 4).2.2.1,
   (clear_spec { q_ := [9], stopped_ := false } 4).2.2.2 rfl⟩

/-- Claim C8: the stopped flag is monotonic — once raised, it stays raised
across any sequence of operations (push, wait_pop, try_pop, stop, clear,
size, stopped). -/
theorem stopped_monotone (ops : List (Op T)) (s : ThreadSafeQueue T)
    (h : s.stopped_ = true) : (run s ops).stopped_ = true := by
  induction ops generalizing s with
  | nil => exact h
  | cons op ops ih => exact ih (step op s).2 (step_keeps_stopped op s h)

/-- Claim C8 witness: starting stopped, a push, a clear, a try_pop and a
size query leave the flag raised. -/
theorem stopped_monotone_witness :
    ({ q_ := [1], stopped_ := true } : ThreadSafeQueue Nat).stopped_ = true ∧
    (run ({ q_ := [1], stopped_ := true } : ThreadSafeQueue Nat)
      [Op.push 3, Op.clear, Op.try_pop, Op.size]).stopped_ = true :=
  ⟨rfl, stopped_monotone [Op.push 3, Op.clear, Op.try_pop, Op.size]
    { q_ := [1], stopped_ := true } rfl⟩

/-- Claim C9: every public operation is total — `step` produces an output and
a successor state on every operation and every queue state (there is no error
output at all in `Out`), and the only operations that can produce the
failure-like `popped none` output are `wait_pop` and `try_pop`. -/
theorem step_total_no_error (op : Op T) (s : ThreadSafeQueue T) :
    step op s = ((step op s).1, (step op s).2) ∧
    ((step op s).1 = Out.popped none → op = Op.wait_pop ∨ op = Op.try_pop) := by
  refine ⟨rfl, ?_⟩
  cases op <;> intro h <;> simp_all [step]

/-- Claim C9 witness: `try_pop` on the empty active queue yields the
`popped none` output, and the implication instantiates. -/
theorem step_total_no_error_witness :
    (step Op.try_pop ({ q_ := [], stopped_ := false } : ThreadSafeQueue Nat)).1
      = Out.popped none ∧
    ((Op.try_pop : Op Nat) = Op.wait_pop ∨ (Op.try_pop : Op Nat) = Op.try_pop) :=
  ⟨rfl, (step_total_no_error Op.try_pop { q_ := [], stopped_ := false }).2 rfl⟩

/-- Claim C10: a successful pop removes exactly the front element — on a
buffer `x :: xs` both `wait_pop` and `try_pop` return `x` and leave exactly
`xs` (order preserved) — and neither pop ever changes the stopped flag, item
or no item. -/
theorem pop_removes_front_only (s : ThreadSafeQueue T) :
    (s.wait_pop.2.stopped_ = s.stopped_ ∧ s.try_pop.2.stopped_ = s.stopped_) ∧
    (∀ x xs, s.q_ = x :: xs →
      s.wait_pop = (some x, { q_ := xs, stopped_ := s.stopped_ }) ∧
      s.try_pop = (some x, { q_ := xs, stopped_ := s.stopped_ })) := by
  refine ⟨?_, ?_⟩
  · cases hq : s.q_ <;> simp [wait_pop, try_pop, hq]
  · intro x xs hx
    simp [wait_pop, try_pop, hx]

/-- Claim C10 witness: popping a queue holding 7, 8 with a raised flag
returns 7, leaves 8, and keeps the flag, for both pops. -/
theorem pop_removes_front_only_witness :
    ({ q_ := [7, 8], stopped_ := true } : ThreadSafeQueue Nat).wait_pop
      = (some 7, { q_ := [8], stopped_ := true }) ∧
    ({ q_ := [7, 8], stopped_ := true } : ThreadSafeQueue Nat).try_pop
      = (some 7, { q_ := [8], stopped_ := true }) :=
  (pop_removes_front_only { q_ := [7, 8], stopped_ := true }).2 7 [8] rfl

end ThreadSafeQueue

end solar
